import Mathlib

/-!
Shallow embedding of the `balance-tui` sources (`src/main.rs`, `src/cli.rs`,
`src/ui.rs`).

The crates `chem_eq` (the equation parser/balancer), `bpaf` (argument
parsing), `crossterm`/`tui` (terminal backend) and `arboard` (clipboard) are
external collaborators; the spec treats them as black boxes.  The parser
`Equation::new` and the balancer `EquationBalancer::balance` are therefore
parameters of every definition that calls them, side-effecting terminal and
clipboard calls are recorded as explicit action traces, and the loop's
blocking `event::read` is driven by an explicit script of per-iteration
outcomes.

Machine integers: the only arithmetic on machine integers the claims touch
is the `u16` cursor position in `ui` (`src/ui.rs:231`), which is embedded on
`Nat` with an explicit `% 2 ^ 16`.
-/

namespace BalanceTui

/-- Colours of `tui::style::Color` used by `src/ui.rs` (external enum;
only the variants the source mentions are embedded). -/
inductive Color
  | DarkGray
  | Yellow
  | Green
  | Red
deriving DecidableEq, Repr

/-- Modelled from the spec: `chem_eq::Equation` is external.  The spec says a
`BalancedEquation` "exposes a canonical textual rendering and an
equality-comparable structured form"; the core reads that rendering through
the accessor `Equation::equation` (`src/ui.rs:56`) and through `Display`
(`eq.to_string()`, `src/ui.rs:159`).  We embed the equation as its canonical
textual rendering plus an abstract structural payload. -/
structure Equation where
  equation : String
  structure_ : List String
deriving DecidableEq, Repr

/-- Source `eq.to_string()` (`src/ui.rs:159`).  Modelled from the spec: the
external `Display` of `chem_eq::Equation` produces the canonical textual
rendering, the same text `Equation::equation` exposes. -/
def Equation.to_string (eq : Equation) : String :=
  eq.equation

/-- Variants of `chem_eq::error::EquationError` matched by `src/ui.rs:59-60`
(external enum; `ParsingError` carries a parser message that the core never
reads). -/
inductive EquationError
  | ParsingError (msg : String)
  | IncorrectEquation
deriving DecidableEq, Repr

/-- Modelled from the spec: `chem_eq::error::BalanceError` is external and
"carries a human-readable reason string"; the core only calls its
`to_string` (`src/ui.rs:61`, `src/ui.rs:118`), so it is embedded as that
message. -/
structure BalanceError where
  message : String
deriving DecidableEq, Repr

/-- Source `e.to_string()` on a `BalanceError` (`src/ui.rs:61`): the
evaluator's message text, verbatim. -/
def BalanceError.to_string (e : BalanceError) : String :=
  e.message

/-- The `Error` enum of `src/ui.rs:107-111`. -/
inductive Error
  | Eq (e : EquationError)
  | Balance (e : BalanceError)
deriving DecidableEq, Repr

/-- The `InputMode` enum of `src/ui.rs:91-96`; `Normal` is `#[default]`. -/
inductive InputMode
  | Editing
  | Normal
deriving DecidableEq, Repr

deriving instance DecidableEq for Except

/-- The `App` state of `src/ui.rs:20-25`: mode, raw input text, and the last
evaluation result (`output`, the spec's `last_result`). -/
structure App where
  input_mode : InputMode
  input : String
  output : Option (Except Error Equation)
deriving DecidableEq, Repr

/-- `App::default()` (`src/ui.rs:145`): `Normal` mode, empty input, no
result. -/
def App.default : App :=
  ⟨InputMode.Normal, "", none⟩

/-- The parser `Equation::new` (`src/ui.rs:80`) and the balancer
`EquationBalancer::new(..).balance()` (`src/ui.rs:85-86`), abstract. -/
structure Evaluator where
  new : String → Except EquationError Equation
  balance : Equation → Except BalanceError Equation

/-- `App::update_eq` (`src/ui.rs:75-88`): empty input clears the result;
otherwise parse, and on success balance, storing the mapped outcome. -/
def App.update_eq (ev : Evaluator) (app : App) : App :=
  if app.input = "" then { app with output := none }
  else
    match ev.new app.input with
    | Except.error e => { app with output := some (Except.error (Error.Eq e)) }
    | Except.ok eq =>
        { app with output := some ((ev.balance eq).mapError Error.Balance) }

/-- The spec's Validation Pipeline, written from its words (spec 4.3):
`validate(input)` is `None` on empty input, otherwise the Domain Evaluator's
outcome mapped into the failure taxonomy.  Used to compare `update_eq` and
the session loop against the spec. -/
def validate (ev : Evaluator) (s : String) : Option (Except Error Equation) :=
  if s = "" then none
  else
    match ev.new s with
    | Except.error e => some (Except.error (Error.Eq e))
    | Except.ok eq => some ((ev.balance eq).mapError Error.Balance)

/-- `crossterm::event::KeyModifiers` (external bitflags); only the bits the
source compares against matter.  `src/ui.rs:152` and `src/ui.rs:164` test
exact equality with `KeyModifiers::CONTROL`. -/
structure KeyModifiers where
  shift : Bool
  control : Bool
  alt : Bool
deriving DecidableEq, Repr

/-- The `KeyModifiers::CONTROL` constant: only the control bit set. -/
def KeyModifiers.CONTROL : KeyModifiers :=
  ⟨false, true, false⟩

/-- The empty `KeyModifiers::NONE` constant. -/
def KeyModifiers.NONE : KeyModifiers :=
  ⟨false, false, false⟩

/-- `crossterm::event::KeyCode` (external enum), restricted to the variants
`src/ui.rs` matches plus representatives of the unmatched rest (`Enter`,
`Tab`), which fall to the `_ => {}` arm. -/
inductive KeyCode
  | Char (c : Char)
  | Esc
  | Backspace
  | Enter
  | Tab
deriving DecidableEq, Repr

/-- A key event: code plus modifiers, as read by `src/ui.rs:150`. -/
structure KeyEvent where
  code : KeyCode
  modifiers : KeyModifiers
deriving DecidableEq, Repr

/-- What a single dispatch of the `match` in `src/ui.rs:151-177` asks the
loop to do besides updating `App`: nothing, `break` (quit), or a clipboard
write of the given text. -/
inductive Effect
  | none
  | quit
  | copy (text : String)
deriving DecidableEq, Repr

/-- Rust `String::pop` (`src/ui.rs:173`): remove the last character (a
no-op on the empty string). -/
def pop_last (s : String) : String :=
  String.mk s.data.dropLast

/-- The key dispatcher: the `match (&app.input_mode, key.code)` of
`src/ui.rs:151-177`, with Rust's guarded-arm fallthrough made explicit:

* arm 1 (`src/ui.rs:152`): any mode, `Char('c')` with modifiers exactly
  `CONTROL` quits; a `'c'` with other modifiers falls through to the arms
  below, so in `Editing` it is appended;
* `Normal`: `'q'`/`Esc` quit, `'i'`/`'e'` enter `Editing`, `'y'` copies the
  balanced equation's text when `output` is a success (`src/ui.rs:157-161`),
  everything else is a no-op;
* `Editing`: `Esc` returns to `Normal`; `Char('[')` with modifiers exactly
  `CONTROL` returns to `Normal` (`src/ui.rs:163-167`), any other char —
  including `'['` without exact `CONTROL` — is appended and the equation
  re-evaluated (`src/ui.rs:168-171`); `Backspace` pops the last char and
  re-evaluates (`src/ui.rs:172-175`); everything else is a no-op. -/
def dispatch (ev : Evaluator) (app : App) (key : KeyEvent) : App × Effect :=
  if key.code = KeyCode.Char 'c' ∧ key.modifiers = KeyModifiers.CONTROL then
    (app, Effect.quit)
  else
    match app.input_mode, key.code with
    | InputMode.Normal, KeyCode.Char c =>
        if c = 'q' then (app, Effect.quit)
        else if c = 'i' ∨ c = 'e' then
          ({ app with input_mode := InputMode.Editing }, Effect.none)
        else if c = 'y' then
          match app.output with
          | some (Except.ok eq) => (app, Effect.copy eq.to_string)
          | _ => (app, Effect.none)
        else (app, Effect.none)
    | InputMode.Normal, KeyCode.Esc => (app, Effect.quit)
    | InputMode.Normal, _ => (app, Effect.none)
    | InputMode.Editing, KeyCode.Esc =>
        ({ app with input_mode := InputMode.Normal }, Effect.none)
    | InputMode.Editing, KeyCode.Char c =>
        if c = '[' ∧ key.modifiers = KeyModifiers.CONTROL then
          ({ app with input_mode := InputMode.Normal }, Effect.none)
        else
          (App.update_eq ev { app with input := app.input.push c }, Effect.none)
    | InputMode.Editing, KeyCode.Backspace =>
        (App.update_eq ev { app with input := pop_last app.input },
          Effect.none)
    | InputMode.Editing, _ => (app, Effect.none)

/-- The local `text` computed by `App::output_body` (`src/ui.rs:51-64`):
the string chosen from `output` before the uniform one-space padding
`format!(" {}", text)` is applied. -/
def output_text (o : Option (Except Error Equation)) : String :=
  match o with
  | none => "Waiting for equation..."
  | some (Except.ok eq) => eq.equation
  | some (Except.error (Error.Eq (EquationError.ParsingError _))) =>
      "Couldn't parse equation"
  | some (Except.error (Error.Eq EquationError.IncorrectEquation)) =>
      "Equation was not valid"
  | some (Except.error (Error.Balance e)) => e.to_string

/-- The foreground style chosen by `App::output_body` (`src/ui.rs:65-69`). -/
def output_style (o : Option (Except Error Equation)) : Color :=
  match o with
  | some (Except.ok _) => Color.Green
  | some (Except.error _) => Color.Red
  | none => Color.DarkGray

/-- The paragraph built by `App::output_body` (`src/ui.rs:70-72`): the chosen
text behind one space of padding, in the chosen colour. -/
structure ParagraphModel where
  text : String
  fg : Color
deriving DecidableEq, Repr

/-- `App::output_body` (`src/ui.rs:50-73`) as (padded text, colour). -/
def App.output_body (app : App) : ParagraphModel :=
  ⟨" " ++ output_text app.output, output_style app.output⟩

/-- A terminal rectangle (`tui::layout::Rect`), on `Nat` coordinates. -/
structure Rect where
  x : Nat
  y : Nat
  width : Nat
  height : Nat
deriving DecidableEq, Repr

/-- The second chunk of the vertical layout of `ui` (`src/ui.rs:194-207`):
margin 1 around the frame, then fixed heights 1 (title), 3 (input box),
3 (output box), 5 (help), min 1 (rest).  For a frame tall and wide enough
for every fixed constraint the solver stacks the chunks sequentially, so
the input box starts one column in and below the one-row title:
`x + 1, y + 2`, width minus the two margin columns, height 3. -/
def input_chunk (area : Rect) : Rect :=
  ⟨area.x + 1, area.y + 2, area.width - 2, 3⟩

/-- The cursor placement of `ui` (`src/ui.rs:229-234`): hidden in `Normal`
mode (no `set_cursor` call), and in `Editing` mode set to
`chunks[1].x + app.input.len() as u16 + 2` and `chunks[1].y + 1`.
Rust's `String::len` is the UTF-8 byte length, and the arithmetic is on
`u16`, embedded with explicit `% 2 ^ 16`. -/
def ui_cursor (area : Rect) (app : App) : Option (Nat × Nat) :=
  match app.input_mode with
  | InputMode.Editing =>
      some
        (((input_chunk area).x % 2 ^ 16 + app.input.utf8ByteSize % 2 ^ 16 + 2)
            % 2 ^ 16,
          ((input_chunk area).y % 2 ^ 16 + 1) % 2 ^ 16)
  | InputMode.Normal => none

/-- Terminal and clipboard side effects the session performs, in order
(`src/ui.rs:136-189`). -/
inductive TermAction
  | EnableRaw
  | EnterAltScreen
  | EnableMouse
  | Draw
  | SetClipboard (text : String)
  | DisableRaw
  | LeaveAltScreen
  | DisableMouse
  | ShowCursor
deriving DecidableEq, Repr

/-- One iteration's worth of external outcomes for the session loop: whether
`terminal.draw` succeeds, what `event::read` yields (`Except.error` = I/O
failure, `none` = a non-key event, `some k` = a key event), and whether
`clipboard.set_text` would succeed if called this iteration. -/
structure IterOutcome where
  drawOk : Bool
  readResult : Except Unit (Option KeyEvent)
  clipOk : Bool
deriving DecidableEq, Repr

/-- How a run of the `loop` in `src/ui.rs:148-179` ends: a `break` (quit),
a propagated `?` error, or the script of outcomes ran out with the loop
still blocked on the next event. -/
inductive LoopExit
  | quit
  | err
  | pending
deriving DecidableEq, Repr

/-- The session loop of `src/ui.rs:148-179`, driven by a script of external
outcomes.  Each iteration draws (recording `Draw`; a draw failure
propagates), reads an event (a read failure propagates; non-key events are
ignored), and dispatches a key event; a `copy` effect calls
`clipboard.set_text` (recording it; a clipboard failure propagates), and a
`quit` effect breaks the loop.  Returns how the loop ended, the actions it
performed, and the final `App`. -/
def run_loop (ev : Evaluator) (app : App) :
    List IterOutcome → LoopExit × List TermAction × App
  | [] => (LoopExit.pending, [], app)
  | it :: rest =>
    if it.drawOk = false then (LoopExit.err, [], app)
    else
      match it.readResult with
      | Except.error _ => (LoopExit.err, [TermAction.Draw], app)
      | Except.ok none =>
          let r := run_loop ev app rest
          (r.1, TermAction.Draw :: r.2.1, r.2.2)
      | Except.ok (some key) =>
          match dispatch ev app key with
          | (app', Effect.quit) => (LoopExit.quit, [TermAction.Draw], app')
          | (app', Effect.none) =>
              let r := run_loop ev app' rest
              (r.1, TermAction.Draw :: r.2.1, r.2.2)
          | (app', Effect.copy text) =>
              if it.clipOk then
                let r := run_loop ev app' rest
                (r.1, TermAction.Draw :: TermAction.SetClipboard text :: r.2.1,
                  r.2.2)
              else (LoopExit.err, [TermAction.Draw], app')

/-- The `tui` function (`src/ui.rs:136-190`): acquire raw mode, the
alternate screen and mouse capture, run the loop from `App::default()`, and
— only when the loop ended in a `break` — disable raw mode, leave the
alternate screen, disable mouse capture and show the cursor
(`src/ui.rs:181-187`).  A propagated `?` error returns before that release
block is reached, exactly as in the source.  Returns how the call ended and
the terminal actions performed. -/
def tui (ev : Evaluator) (script : List IterOutcome) :
    LoopExit × List TermAction :=
  let setup := [TermAction.EnableRaw, TermAction.EnterAltScreen,
    TermAction.EnableMouse]
  let r := run_loop ev App.default script
  match r.1 with
  | LoopExit.quit =>
      (LoopExit.quit,
        setup ++ r.2.1 ++ [TermAction.DisableRaw, TermAction.LeaveAltScreen,
          TermAction.DisableMouse, TermAction.ShowCursor])
  | LoopExit.err => (LoopExit.err, setup ++ r.2.1)
  | LoopExit.pending => (LoopExit.pending, setup ++ r.2.1)

/-- Modelled from the spec: the one-shot path prints "the textual result
(success text or error text)" of the evaluation (`src/main.rs:12` formats
the balancer's outcome with `Display`): the balanced equation's canonical
text on success, the balance error's message otherwise. -/
def balance_result_text (r : Except BalanceError Equation) : String :=
  match r with
  | Except.ok eq => eq.to_string
  | Except.error e => e.to_string

/-- Observable outcome of one program invocation: process exit code, lines
printed to standard output, and whether the interactive session was
entered. -/
structure ProgResult where
  exitCode : Nat
  stdout : List String
  enteredTui : Bool
deriving DecidableEq, Repr

/-- `main` (`src/main.rs:6-19`) after argument parsing: with a parsed
equation present it prints the balancer's textual outcome and returns `Ok`
(exit 0) without entering the TUI; with no equation it enters the TUI. -/
def main (ev : Evaluator) (equation : Option Equation) : ProgResult :=
  match equation with
  | some eq =>
      ⟨0, [balance_result_text (ev.balance eq)], false⟩
  | none => ⟨0, [], true⟩

/-- The CLI stage plus `main`.  `src/cli.rs:9-12` declares the optional
positional argument with the parsed type `Equation`, so `bpaf`'s
`chem_args().run()` (`src/main.rs:9`) applies the equation parser to the
raw argument before `main`'s body runs; per the CLI library's contract,
a positional value that fails to parse makes `run()` report a
command-line error and exit the process with a non-zero code, printing
nothing to standard output. -/
def run_program (ev : Evaluator) (arg : Option String) : ProgResult :=
  match arg with
  | none => main ev none
  | some s =>
      match ev.new s with
      | Except.ok eq => main ev (some eq)
      | Except.error _ => ⟨1, [], false⟩

/-- A concrete instance of the abstract evaluator whose parser rejects every
input with a parse error; used to evaluate the embedding at concrete
inputs. -/
def ev0 : Evaluator :=
  ⟨fun s => Except.error (EquationError.ParsingError s),
    fun eq => Except.ok eq⟩

/-- A concrete instance of the abstract evaluator whose parser accepts every
input as-is and whose balancer succeeds; used to evaluate the embedding at
concrete inputs. -/
def ev1 : Evaluator :=
  ⟨fun s => Except.ok ⟨s, [s]⟩, fun eq => Except.ok eq⟩

/-- A concrete balanced equation for concrete evaluations. -/
def eq1 : Equation :=
  ⟨"2H2 + O2 = 2H2O", ["2H2", "O2", "2H2O"]⟩

lemma update_eq_output (ev : Evaluator) (app : App) :
    (App.update_eq ev app).output = validate ev app.input := by
  unfold App.update_eq validate
  split
  · rfl
  · split <;> rfl

lemma update_eq_input (ev : Evaluator) (app : App) :
    (App.update_eq ev app).input = app.input := by
  unfold App.update_eq
  split
  · rfl
  · split <;> rfl

lemma pop_last_eq_empty (s : String) (h : s.length ≤ 1) : pop_last s = "" := by
  have hlen : s.data.length ≤ 1 := h
  have h2 : s.data.dropLast = [] := by
    apply List.eq_nil_of_length_eq_zero
    rw [List.length_dropLast]
    omega
  unfold pop_last
  rw [h2]

lemma dispatch_fst_inv (ev : Evaluator) (app : App) (key : KeyEvent)
    (h : app.output = validate ev app.input) :
    ((dispatch ev app key).1).output =
      validate ev ((dispatch ev app key).1).input := by
  unfold dispatch
  repeat' split
  all_goals first
    | exact h
    | rw [update_eq_output, update_eq_input]

lemma run_loop_inv (ev : Evaluator) (script : List IterOutcome) :
    ∀ app : App, app.output = validate ev app.input →
      ((run_loop ev app script).2.2).output =
        validate ev ((run_loop ev app script).2.2).input := by
  induction script with
  | nil => exact fun _ h => h
  | cons it rest ih =>
    intro app h
    unfold run_loop
    split
    · exact h
    · split
      · exact h
      · exact ih app h
      · rename_i key hread
        split
        · rename_i app' heq
          have hd := dispatch_fst_inv ev app key h
          rw [heq] at hd
          exact hd
        · rename_i app' heq
          have hd := dispatch_fst_inv ev app key h
          rw [heq] at hd
          exact ih app' hd
        · rename_i app' t heq
          split
          · have hd := dispatch_fst_inv ev app key h
            rw [heq] at hd
            exact ih app' hd
          · have hd := dispatch_fst_inv ev app key h
            rw [heq] at hd
            exact hd

/-- Claim C1: after every key-event dispatch of the session loop — for every
evaluator and every script of external outcomes, hence at every point after
any dispatch sequence starting from `App::default()` — the state's
`output` (the spec's `last_result`) equals `validate` applied to the exact
current `input`: every input mutation immediately re-runs the validation
pipeline, so no stale result survives an input edit. -/
theorem C1_last_result_consistent (ev : Evaluator) (script : List IterOutcome) :
    ((run_loop ev App.default script).2.2).output =
      validate ev ((run_loop ev App.default script).2.2).input :=
  run_loop_inv ev script App.default rfl

/-- Claim C2 (code bug): a propagated error inside the session loop — here a
failing `event::read` on the first iteration — makes `tui` return the error
without having disabled raw mode, left the alternate screen, disabled mouse
capture or restored the cursor: the release block of `src/ui.rs:181-187`
runs only after a normal `break` (last conjunct), never on the `?` error
paths. -/
theorem C2_release_skipped_on_error :
    tui ev0 [⟨true, Except.error (), true⟩] =
      (LoopExit.err,
        [TermAction.EnableRaw, TermAction.EnterAltScreen,
          TermAction.EnableMouse, TermAction.Draw]) ∧
    TermAction.DisableRaw ∉ (tui ev0 [⟨true, Except.error (), true⟩]).2 ∧
    TermAction.LeaveAltScreen ∉ (tui ev0 [⟨true, Except.error (), true⟩]).2 ∧
    TermAction.DisableMouse ∉ (tui ev0 [⟨true, Except.error (), true⟩]).2 ∧
    TermAction.ShowCursor ∉ (tui ev0 [⟨true, Except.error (), true⟩]).2 ∧
    tui ev0
        [⟨true, Except.ok (some ⟨KeyCode.Char 'q', KeyModifiers.NONE⟩), true⟩] =
      (LoopExit.quit,
        [TermAction.EnableRaw, TermAction.EnterAltScreen,
          TermAction.EnableMouse, TermAction.Draw, TermAction.DisableRaw,
          TermAction.LeaveAltScreen, TermAction.DisableMouse,
          TermAction.ShowCursor]) := by
  decide

/-- Claim C3: pressing `y` in `Normal` mode is a no-op (state unchanged, no
clipboard write — the loop performs only the draw, even when the clipboard
would fail) whenever `output` is not a success; when `output` is a success
the clipboard receives exactly the balanced equation's textual rendering,
the same text `output_text` displays for that success; and a clipboard
failure makes the loop end in `LoopExit.err` (the `?` propagates it to the
caller) instead of being swallowed. -/
theorem C3_copy_key (ev : Evaluator) (app : App) (m : KeyModifiers)
    (eq : Equation) (rest : List IterOutcome)
    (hm : app.input_mode = InputMode.Normal) :
    ((∀ e : Equation, app.output ≠ some (Except.ok e)) →
        dispatch ev app ⟨KeyCode.Char 'y', m⟩ = (app, Effect.none) ∧
        run_loop ev app
            (⟨true, Except.ok (some ⟨KeyCode.Char 'y', m⟩), false⟩ :: rest) =
          ((run_loop ev app rest).1,
            TermAction.Draw :: (run_loop ev app rest).2.1,
            (run_loop ev app rest).2.2)) ∧
    (app.output = some (Except.ok eq) →
        dispatch ev app ⟨KeyCode.Char 'y', m⟩ =
          (app, Effect.copy eq.to_string) ∧
        output_text app.output = eq.to_string ∧
        run_loop ev app
            (⟨true, Except.ok (some ⟨KeyCode.Char 'y', m⟩), true⟩ :: rest) =
          ((run_loop ev app rest).1,
            TermAction.Draw :: TermAction.SetClipboard eq.to_string ::
              (run_loop ev app rest).2.1,
            (run_loop ev app rest).2.2) ∧
        run_loop ev app
            (⟨true, Except.ok (some ⟨KeyCode.Char 'y', m⟩), false⟩ :: rest) =
          (LoopExit.err, [TermAction.Draw], app)) := by
  obtain ⟨mode, i, o⟩ := app
  cases hm
  constructor
  · intro hne
    have hd : dispatch ev ⟨InputMode.Normal, i, o⟩ ⟨KeyCode.Char 'y', m⟩ =
        (⟨InputMode.Normal, i, o⟩, Effect.none) := by
      unfold dispatch
      cases o with
      | none => simp
      | some r =>
        cases r with
        | ok e => exact absurd rfl (hne e)
        | error e => simp
    refine ⟨hd, ?_⟩
    simp only [run_loop]
    simp [hd]
  · intro hs
    cases hs
    have hd : dispatch ev ⟨InputMode.Normal, i, some (Except.ok eq)⟩
          ⟨KeyCode.Char 'y', m⟩ =
        (⟨InputMode.Normal, i, some (Except.ok eq)⟩, Effect.copy eq.to_string) := by
      unfold dispatch
      simp
    refine ⟨hd, rfl, ?_, ?_⟩
    · simp only [run_loop]
      simp [hd]
    · simp only [run_loop]
      simp [hd]

/-- Claim C3 witness: with a successful result present, `y` in `Normal` mode
asks for a clipboard write of exactly the balanced equation's text. -/
theorem C3_copy_key_witness :
    dispatch ev1 ⟨InputMode.Normal, "H2+O2=H2O", some (Except.ok eq1)⟩
        ⟨KeyCode.Char 'y', KeyModifiers.NONE⟩ =
      (⟨InputMode.Normal, "H2+O2=H2O", some (Except.ok eq1)⟩,
        Effect.copy eq1.to_string) :=
  ((C3_copy_key ev1 ⟨InputMode.Normal, "H2+O2=H2O", some (Except.ok eq1)⟩
      KeyModifiers.NONE eq1 [] rfl).2 rfl).1

/-- Claim C4 counterexample: the claim asserts exit code 0 for every
invocation carrying a positional equation argument, "regardless of whether
the equation parsed"; but the argument is parsed by the CLI stage
(`src/cli.rs:10-11` gives the positional the parsed type `Equation`), so an
argument the parser rejects exits with code 1 and the universally quantified
claim is false — witnessed by an evaluator that rejects
"not an equation". -/
theorem C4_counterexample :
    (run_program ev0 (some "not an equation")).exitCode = 1 ∧
    ¬ ∀ (ev : Evaluator) (s : String),
        (run_program ev (some s)).exitCode = 0 := by
  constructor
  · decide
  · intro h
    exact absurd (h ev0 "not an equation") (by decide)

/-- Claim C4 as amended: for an invocation whose positional argument parses
as an equation, the program prints exactly the balancer's textual outcome
(success text or error text) to standard output, never enters the TUI, and
exits 0 regardless of whether balancing succeeded; an argument that fails to
parse is rejected by the CLI stage with a non-zero exit, nothing on standard
output, and no TUI. -/
theorem C4_one_shot (ev : Evaluator) (s : String) :
    (∀ eq : Equation, ev.new s = Except.ok eq →
        run_program ev (some s) =
          ⟨0, [balance_result_text (ev.balance eq)], false⟩) ∧
    (∀ e : EquationError, ev.new s = Except.error e →
        run_program ev (some s) = ⟨1, [], false⟩) := by
  constructor
  · intro eq h
    simp only [run_program, h]
    rfl
  · intro e h
    simp only [run_program, h]

/-- Claim C4 witness: a rejected argument exits 1 with empty stdout and no
TUI; an accepted one exits 0 printing the balancer's outcome, no TUI. -/
theorem C4_one_shot_witness :
    run_program ev0 (some "x") = ⟨1, [], false⟩ ∧
    run_program ev1 (some "H2+O2=H2O") =
      ⟨0, [balance_result_text (ev1.balance ⟨"H2+O2=H2O", ["H2+O2=H2O"]⟩)],
        false⟩ :=
  ⟨(C4_one_shot ev0 "x").2 (EquationError.ParsingError "x") rfl,
    (C4_one_shot ev1 "H2+O2=H2O").1 ⟨"H2+O2=H2O", ["H2+O2=H2O"]⟩ rfl⟩

/-- Claim C5: empty input always yields an absent result, never an error:
`update_eq` on empty input clears `output` without consulting the evaluator
(the result is the same for any two evaluators); a backspace that empties
the input (length at most 1) leaves `output = none`; and any session state
reached by the loop whose input is empty has `output = none`. -/
theorem C5_empty_input_absent (ev ev' : Evaluator) (app : App)
    (m : KeyModifiers) (script : List IterOutcome) :
    (app.input = "" →
        App.update_eq ev app = { app with output := none } ∧
        App.update_eq ev app = App.update_eq ev' app) ∧
    (app.input_mode = InputMode.Editing → app.input.length ≤ 1 →
        ((dispatch ev app ⟨KeyCode.Backspace, m⟩).1).output = none) ∧
    (((run_loop ev App.default script).2.2).input = "" →
        ((run_loop ev App.default script).2.2).output = none) := by
  refine ⟨?_, ?_, ?_⟩
  · intro h
    constructor <;> (unfold App.update_eq; rw [h]; simp)
  · intro hm hlen
    obtain ⟨mode, i, o⟩ := app
    cases hm
    have hp : pop_last i = "" := pop_last_eq_empty i hlen
    unfold dispatch
    simp [update_eq_output, hp, validate]
  · intro h
    have hinv := run_loop_inv ev script App.default rfl
    rw [h] at hinv
    exact hinv

/-- Claim C5 witness: erasing the single character of input `"a"` with
backspace leaves an absent result. -/
theorem C5_empty_input_absent_witness :
    ("a" : String).length ≤ 1 ∧
    ((dispatch ev0 ⟨InputMode.Editing, "a", none⟩
        ⟨KeyCode.Backspace, KeyModifiers.NONE⟩).1).output = none :=
  ⟨by decide,
    (C5_empty_input_absent ev0 ev0 ⟨InputMode.Editing, "a", none⟩
        KeyModifiers.NONE []).2.1 rfl (by decide)⟩

/-- Claim C6: each mode transition — `i` or `e` in `Normal` entering
`Editing`, `Esc` or exactly-`Ctrl`+`[` in `Editing` returning to `Normal` —
changes only the mode field, leaving `input` and `output` untouched. -/
theorem C6_mode_transitions_pure (ev : Evaluator) (i : String)
    (o : Option (Except Error Equation)) (m : KeyModifiers) :
    dispatch ev ⟨InputMode.Normal, i, o⟩ ⟨KeyCode.Char 'i', m⟩ =
      (⟨InputMode.Editing, i, o⟩, Effect.none) ∧
    dispatch ev ⟨InputMode.Normal, i, o⟩ ⟨KeyCode.Char 'e', m⟩ =
      (⟨InputMode.Editing, i, o⟩, Effect.none) ∧
    dispatch ev ⟨InputMode.Editing, i, o⟩ ⟨KeyCode.Esc, m⟩ =
      (⟨InputMode.Normal, i, o⟩, Effect.none) ∧
    dispatch ev ⟨InputMode.Editing, i, o⟩
        ⟨KeyCode.Char '[', KeyModifiers.CONTROL⟩ =
      (⟨InputMode.Normal, i, o⟩, Effect.none) := by
  refine ⟨?_, ?_, ?_, ?_⟩ <;> (unfold dispatch; simp)

/-- Claim C7: `Ctrl+C` — `Char('c')` with modifiers exactly `CONTROL` —
quits in every mode and from every state: the dispatcher's first arm fires
before every other rule (in particular before the `Editing` append rule),
and the loop breaks on that iteration. -/
theorem C7_ctrl_c_quits (ev : Evaluator) (app : App) (rest : List IterOutcome)
    (clip : Bool) :
    dispatch ev app ⟨KeyCode.Char 'c', KeyModifiers.CONTROL⟩ =
      (app, Effect.quit) ∧
    run_loop ev app
        (⟨true, Except.ok (some ⟨KeyCode.Char 'c', KeyModifiers.CONTROL⟩),
            clip⟩ :: rest) =
      (LoopExit.quit, [TermAction.Draw], app) :=
  ⟨rfl, rfl⟩

/-- Claim C8: the output box text is a function of `output` with a distinct
rendering per kind: absent shows the muted waiting placeholder; success
shows the balanced equation's canonical text in green; a parse failure shows
"Couldn't parse equation"; an invalid equation shows the distinct fixed
message "Equation was not valid"; a balance failure shows the evaluator's
message verbatim; every failure kind is red. -/
theorem C8_output_box_rendering (eq : Equation) (msg : String)
    (e : BalanceError) :
    output_text none = "Waiting for equation..." ∧
    output_style none = Color.DarkGray ∧
    output_text (some (Except.ok eq)) = eq.equation ∧
    output_style (some (Except.ok eq)) = Color.Green ∧
    output_text (some (Except.error (Error.Eq (EquationError.ParsingError msg))))
      = "Couldn't parse equation" ∧
    output_text (some (Except.error (Error.Eq EquationError.IncorrectEquation)))
      = "Equation was not valid" ∧
    "Couldn't parse equation" ≠ "Equation was not valid" ∧
    output_text (some (Except.error (Error.Balance e))) = e.to_string ∧
    (∀ err : Error, output_style (some (Except.error err)) = Color.Red) :=
  ⟨rfl, rfl, rfl, rfl, rfl, rfl, by decide, rfl, fun _ => rfl⟩

/-- Claim C9 counterexample: the cursor is claimed at `input.length + 1`
columns into the input box (one past the end of the text, whose first
character sits one column into the box interior); but `src/ui.rs:231` uses
`app.input.len()`, Rust's UTF-8 byte length, so for the one-character input
"é" (2 bytes) the cursor lands one column further right than the claimed
position. -/
theorem C9_cursor_counterexample :
    ¬ ∀ (area : Rect) (app : App), app.input_mode = InputMode.Editing →
        ui_cursor area app =
          some ((input_chunk area).x + 1 + (app.input.length + 1),
            (input_chunk area).y + 1) := by
  intro h
  have hc := h ⟨0, 0, 80, 24⟩ ⟨InputMode.Editing, "é", none⟩ rfl
  exact absurd hc (by decide)

/-- Claim C9 as amended: the cursor is hidden in `Normal` mode, and in
`Editing` mode (for positions fitting in `u16`) it sits at the input's
UTF-8 byte length plus one columns into the input box interior — i.e. at
`(input_chunk area).x + utf8ByteSize + 2` — on the box's single content
row; this equals `input.length + 1` columns into the interior exactly when
every input character is one UTF-8 byte. -/
theorem C9_cursor_position (area : Rect) (app : App)
    (hx : (input_chunk area).x + app.input.utf8ByteSize + 2 < 65536)
    (hy : (input_chunk area).y + 1 < 65536) :
    (app.input_mode = InputMode.Normal → ui_cursor area app = none) ∧
    (app.input_mode = InputMode.Editing →
      ui_cursor area app =
        some ((input_chunk area).x + app.input.utf8ByteSize + 2,
          (input_chunk area).y + 1)) := by
  constructor
  · intro h
    simp [ui_cursor, h]
  · intro h
    simp only [ui_cursor, h]
    refine congrArg some (Prod.ext ?_ ?_) <;> simp <;> omega

/-- Claim C9 witness: for the ASCII input "ab" in a standard 80x24 frame the
cursor sits 3 columns into the input box interior, on its content row. -/
theorem C9_cursor_position_witness :
    (input_chunk ⟨0, 0, 80, 24⟩).x + ("ab" : String).utf8ByteSize + 2 < 65536 ∧
    ui_cursor ⟨0, 0, 80, 24⟩ ⟨InputMode.Editing, "ab", none⟩ =
      some ((input_chunk ⟨0, 0, 80, 24⟩).x + ("ab" : String).utf8ByteSize + 2,
        (input_chunk ⟨0, 0, 80, 24⟩).y + 1) :=
  ⟨by decide,
    (C9_cursor_position ⟨0, 0, 80, 24⟩ ⟨InputMode.Editing, "ab", none⟩
        (by decide) (by decide)).2 rfl⟩

/-- Claim C10: in `Editing` mode a character key with modifiers exactly
`CONTROL`, other than `c` (quit) and `[` (back to `Normal`), is dispatched
by the plain-character rule — the guarded arms fall through, the character
is appended and validation re-run — exactly as if the modifier were
absent. -/
theorem C10_ctrl_char_appends (ev : Evaluator) (app : App) (c : Char)
    (hm : app.input_mode = InputMode.Editing) (hc : c ≠ 'c') (hb : c ≠ '[') :
    dispatch ev app ⟨KeyCode.Char c, KeyModifiers.CONTROL⟩ =
      (App.update_eq ev { app with input := app.input.push c },
        Effect.none) ∧
    dispatch ev app ⟨KeyCode.Char c, KeyModifiers.CONTROL⟩ =
      dispatch ev app ⟨KeyCode.Char c, KeyModifiers.NONE⟩ := by
  obtain ⟨mode, i, o⟩ := app
  cases hm
  constructor <;>
    (unfold dispatch;
      simp [hc, hb, KeyModifiers.CONTROL, KeyModifiers.NONE])

/-- Claim C10 witness: `Ctrl+X` in `Editing` mode behaves exactly like the
plain `x` key. -/
theorem C10_ctrl_char_appends_witness :
    ('x' : Char) ≠ 'c' ∧
    dispatch ev0 ⟨InputMode.Editing, "", none⟩
        ⟨KeyCode.Char 'x', KeyModifiers.CONTROL⟩ =
      dispatch ev0 ⟨InputMode.Editing, "", none⟩
        ⟨KeyCode.Char 'x', KeyModifiers.NONE⟩ :=
  ⟨by decide,
    (C10_ctrl_char_appends ev0 ⟨InputMode.Editing, "", none⟩ 'x' rfl
        (by decide) (by decide)).2⟩

end BalanceTui
